import Mathlib

/-!
Shallow embedding of the `htm` Go package (file `htm.go`): an HTML element
tree builder and renderer.  Go interface values of type `Element` are
modelled by the inductive type `Htm.Elem`; the nil interface value is the
constructor `nilElem`.  Go code that can panic (calling `Render` on a nil
interface, the type assertion `attr.(*attribute)`, the index `t.attrs[0]`)
is modelled in `Option`, with `none` standing for a panic.  Machine state
(`strings.Builder`) becomes ordinary string concatenation in the same
order as the writes.
-/

set_option autoImplicit false

namespace Htm

/-- Models the Go `Element` interface together with its three concrete
implementations in `htm.go`: `text` (a string), `*attribute` (a name/value
pair) and `*builder` (tag, selfClosing flag, fragment flag, attribute list,
body list).  `nilElem` is the nil interface value, which callers may pass
as a child. -/
inductive Elem where
  | text (s : String)
  | attribute (name value : String)
  | builder (tag : String) (selfClosing fragment : Bool)
      (attrs : List Elem) (body : List Elem)
  | nilElem

/-- Models `(t text) Render`: a text element renders to its stored string. -/
def textRender (s : String) : String := s

/-- Models `(a *attribute) Render` on a non-nil receiver:
`fmt.Sprintf("%s='%s'", a.name, a.value)`, i.e. the name, an equals sign and
the value wrapped in single quotes. -/
def attrPair (name value : String) : String :=
  name ++ "=\x27" ++ value ++ "\x27"

/-- Models the cast `attr.(*attribute)` inside `builder.Render`: succeeds
exactly when the element is an `attribute`; any other dynamic type panics
(`none`). -/
def castAttr : Elem → Option (String × String)
  | .attribute n v => some (n, v)
  | _ => none

/-- Models the attribute loop body of `builder.Render`: each attribute is
cast to `*attribute` and rendered, with a single `" "` written between
consecutive attributes (after every attribute except the last). -/
def renderAttrList : List Elem → Option String
  | [] => some ""
  | [a] =>
    match castAttr a with
    | none => none
    | some p => some (attrPair p.1 p.2)
  | a :: rest =>
    match castAttr a with
    | none => none
    | some p =>
      match renderAttrList rest with
      | none => none
      | some s => some (attrPair p.1 p.2 ++ " " ++ s)

/-- Models lines 326–336 of `builder.Render`: when the attribute list is
non-empty a single space is written first, then the attributes separated by
single spaces; an empty attribute list contributes nothing. -/
def renderAttrs (attrs : List Elem) : Option String :=
  match attrs with
  | [] => some ""
  | _ :: _ =>
    match renderAttrList attrs with
    | none => none
    | some s => some (" " ++ s)

mutual

/-- Models `Render` dispatched on the dynamic type of an element.  A nil
interface value has no method and panics (`none`).  For a `builder`: empty
tag renders to `""`; a fragment concatenates the renders of its body (with
no nil check, `renderFrag`); otherwise `<tag`, the attribute segment, then
either `/>` (self-closing, body ignored) or `>` + body with nil children
skipped (`renderBody`) + `</tag>`. -/
def render : Elem → Option String
  | .text s => some (textRender s)
  | .attribute n v => some (attrPair n v)
  | .nilElem => none
  | .builder tag sc fr attrs body =>
    if tag.length = 0 then some ""
    else if fr then renderFrag body
    else
      match renderAttrs attrs with
      | none => none
      | some astr =>
        if sc then some ("<" ++ tag ++ astr ++ "/>")
        else
          match renderBody body with
          | none => none
          | some bstr =>
            some ("<" ++ tag ++ astr ++ ">" ++ bstr ++ "</" ++ tag ++ ">")

/-- Models the fragment loop of `builder.Render` (lines 316–321): every
body element's `Render` is written in order.  There is no nil check here,
so a nil child panics (`none`). -/
def renderFrag : List Elem → Option String
  | [] => some ""
  | e :: rest =>
    match render e with
    | none => none
    | some s =>
      match renderFrag rest with
      | none => none
      | some t => some (s ++ t)

/-- Models the body loop of `builder.Render` (lines 345–351): nil children
are skipped with `continue`; the others are rendered in order. -/
def renderBody : List Elem → Option String
  | [] => some ""
  | .nilElem :: rest => renderBody rest
  | e :: rest =>
    match render e with
    | none => none
    | some s =>
      match renderBody rest with
      | none => none
      | some t => some (s ++ t)

end

/-- Models one iteration of `builder.withBody` on a `builder` receiver: a
child that is itself a `*builder` with tag `"__attr"` contributes its first
attribute (`t.attrs[0]`, a panic when that list is empty) to the parent's
attribute list; every other child (including a nil interface, for which the
type assertion fails) is appended to the body. -/
def withBodyStep (b el : Elem) : Option Elem :=
  match b with
  | .builder tag sc fr attrs body =>
    match el with
    | .builder t tsc tfr tattrs tbody =>
      if t = "__attr" then
        match tattrs with
        | a :: _ => some (.builder tag sc fr (attrs ++ [a]) body)
        | [] => none
      else
        some (.builder tag sc fr attrs (body ++ [.builder t tsc tfr tattrs tbody]))
    | _ => some (.builder tag sc fr attrs (body ++ [el]))
  | _ => none

/-- Models `builder.withBody`: the loop over the given children, threading
the builder through `withBodyStep`. -/
def withBody : Elem → List Elem → Option Elem
  | b, [] => some b
  | b, el :: rest =>
    match withBodyStep b el with
    | none => none
    | some b2 => withBody b2 rest

/-- Models `build(t, selfClosing, fragment)`: a fresh builder with the given
tag and flags and empty attribute and body lists. -/
def build (t : String) (selfClosing fragment : Bool) : Elem :=
  .builder t selfClosing fragment [] []

/-- Models `Make(tag, body...)`. -/
def Make (tag : String) (body : List Elem) : Option Elem :=
  withBody (build tag false false) body

/-- Models `MakeSelfClosing(tag, body...)`. -/
def MakeSelfClosing (tag : String) (body : List Elem) : Option Elem :=
  withBody (build tag true false) body

/-- Models `Empty()`: `&builder{}`, i.e. a builder whose tag is the empty
string and whose flags and lists are zero values. -/
def Empty : Elem := .builder "" false false [] []

/-- Models `Fragment(body...)`. -/
def Fragment (body : List Elem) : Option Elem :=
  withBody (build "__fragment" false true) body

/-- Models `Attr(key, value)`: `build("__attr", false, false).withAttr(key, value)`,
a builder with tag `"__attr"` carrying the single attribute. -/
def Attr (key value : String) : Elem :=
  .builder "__attr" false false [.attribute key value] []

/-- Models `Id(id)`. -/
def Id (id : String) : Elem := Attr "id" id

/-- Models `Class(class)`. -/
def Class (cls : String) : Elem := Attr "class" cls

/-- Models `Join(parent, children...)`: when the parent's dynamic type is
`*builder` the children are absorbed with `withBody` (the Go code mutates
the parent in place and returns the same pointer; the model returns the
updated value); otherwise the parent is returned unchanged. -/
def Join (parent : Elem) (children : List Elem) : Option Elem :=
  match parent with
  | .builder tag sc fr attrs body => withBody (.builder tag sc fr attrs body) children
  | _ => some parent

/-- Tells whether an element's dynamic type is `*builder`, i.e. whether the
type assertion in `Join` succeeds. -/
def isBuilderElem : Elem → Bool
  | .builder _ _ _ _ _ => true
  | _ => false

/-- Models the flag characters recognised after `%` by Go's `fmt` package:
`+`, `-`, `#`, space and `0`. -/
def isFmtFlag (c : Char) : Bool :=
  c = '+' || c = '-' || c = '#' || c = ' ' || c = '0'

/-- Output Go's `fmt` writes for a `*` width when no operand is left:
`%!(BADWIDTH)`. -/
def badWidthMark : List Char := "%!(BADWIDTH)".data

/-- Output Go's `fmt` writes for a `*` precision when no operand is left:
`%!(BADPREC)`. -/
def badPrecMark : List Char := "%!(BADPREC)".data

/-- Output Go's `fmt` writes for a format string that ends inside a verb:
`%!(NOVERB)`. -/
def noVerbMark : List Char := "%!(NOVERB)".data

/-- Output Go's `fmt` writes for a verb with no operand left:
`%!v(MISSING)` where `v` is the verb character. -/
def missingMark (v : Char) : List Char :=
  "%!".data ++ [v] ++ "(MISSING)".data

/-- Models Go's width parsing after the flags, with no operands: a `*`
consumes one character and emits `%!(BADWIDTH)`; otherwise any literal
digits are consumed silently.  Returns the emitted output and the rest of
the format string. -/
def fmtWidth (l : List Char) : List Char × List Char :=
  match l with
  | '*' :: t => (badWidthMark, t)
  | _ => ([], l.dropWhile Char.isDigit)

/-- Models Go's precision parsing, with no operands: `.` followed by `*`
consumes both and emits `%!(BADPREC)`; `.` followed by digits consumes
them silently; anything else is left untouched. -/
def fmtPrec (l : List Char) : List Char × List Char :=
  match l with
  | '.' :: '*' :: t => (badPrecMark, t)
  | '.' :: t => ([], t.dropWhile Char.isDigit)
  | _ => ([], l)

/-- Models Go's verb handling, with no operands: a format ending right
after the directive emits `%!(NOVERB)`; the verb `%` emits a literal `%`;
any other verb character emits `%!v(MISSING)`. -/
def fmtVerb (l : List Char) : List Char × List Char :=
  match l with
  | [] => (noVerbMark, [])
  | '%' :: t => (['%'], t)
  | v :: t => (missingMark v, t)

/-- Models Go's handling of one `%` directive (the characters after the
`%`) when `fmt.Sprintf` is called with no operands: flags, then width,
then precision, then the verb.  Returns the emitted output and the rest of
the format string. -/
def fmtDirective (l : List Char) : List Char × List Char :=
  let w := fmtWidth (l.dropWhile isFmtFlag)
  let p := fmtPrec w.2
  let v := fmtVerb p.2
  (w.1 ++ p.1 ++ v.1, v.2)

theorem length_dropWhile_le (p : Char → Bool) (l : List Char) :
    (l.dropWhile p).length ≤ l.length := by
  induction l with
  | nil => exact Nat.le_refl _
  | cons c rest ih =>
    simp only [List.dropWhile]
    cases p c
    · exact Nat.le_refl _
    · exact Nat.le_trans ih (Nat.le_succ _)

theorem fmtWidth_length (l : List Char) : (fmtWidth l).2.length ≤ l.length := by
  unfold fmtWidth
  split
  · exact Nat.le_succ _
  · exact length_dropWhile_le _ _

theorem fmtPrec_length (l : List Char) : (fmtPrec l).2.length ≤ l.length := by
  unfold fmtPrec
  split
  · exact Nat.le_trans (Nat.le_succ _) (Nat.le_succ _)
  · exact Nat.le_trans (length_dropWhile_le _ _) (Nat.le_succ _)
  · exact Nat.le_refl _

theorem fmtVerb_length (l : List Char) : (fmtVerb l).2.length ≤ l.length := by
  unfold fmtVerb
  split
  · exact Nat.le_refl _
  · exact Nat.le_succ _
  · exact Nat.le_succ _

theorem fmtDirective_length (l : List Char) :
    (fmtDirective l).2.length ≤ l.length := by
  have h1 := length_dropWhile_le isFmtFlag l
  have h2 := fmtWidth_length (l.dropWhile isFmtFlag)
  have h3 := fmtPrec_length (fmtWidth (l.dropWhile isFmtFlag)).2
  have h4 := fmtVerb_length (fmtPrec (fmtWidth (l.dropWhile isFmtFlag)).2).2
  show (fmtVerb (fmtPrec (fmtWidth (l.dropWhile isFmtFlag)).2).2).2.length ≤ l.length
  omega

/-- Models the main scan of Go's `fmt.Sprintf` over the format string when
no operands are supplied: characters other than `%` are copied verbatim;
each `%` directive is handled by `fmtDirective`.  The scan is written with
explicit fuel so that it is structurally recursive; every step consumes at
least one character, so fuel equal to the length of the format string never
runs out (`fmtNoArgsFuel_congr`).  Formats containing an explicit argument
index (`%[n]...`) are outside this model; the library's callers never
produce one. -/
def fmtNoArgsFuel : Nat → List Char → List Char
  | 0, _ => []
  | _ + 1, [] => []
  | fuel + 1, c :: rest =>
    if c = '%' then
      (fmtDirective rest).1 ++ fmtNoArgsFuel fuel (fmtDirective rest).2
    else
      c :: fmtNoArgsFuel fuel rest

theorem fmtNoArgsFuel_congr :
    ∀ (f1 f2 : Nat) (l : List Char), l.length ≤ f1 → l.length ≤ f2 →
      fmtNoArgsFuel f1 l = fmtNoArgsFuel f2 l := by
  intro f1
  induction f1 with
  | zero =>
    intro f2 l h1 _
    have : l = [] := List.eq_nil_of_length_eq_zero (Nat.le_zero.mp h1)
    subst this
    cases f2 <;> rfl
  | succ g ih =>
    intro f2 l h1 h2
    match l with
    | [] => cases f2 <;> rfl
    | c :: rest =>
      cases f2 with
      | zero => simp only [List.length_cons] at h2; omega
      | succ g2 =>
        simp only [fmtNoArgsFuel]
        by_cases hc : c = '%'
        · simp only [if_pos hc]
          have hd := fmtDirective_length rest
          have : (fmtDirective rest).2.length ≤ g := by
            simp only [List.length_cons] at h1
            omega
          have h2' : (fmtDirective rest).2.length ≤ g2 := by
            simp only [List.length_cons] at h2
            omega
          rw [ih g2 _ this h2']
        · simp only [if_neg hc]
          have : rest.length ≤ g := by
            simp only [List.length_cons] at h1
            omega
          have h2' : rest.length ≤ g2 := by
            simp only [List.length_cons] at h2
            omega
          rw [ih g2 rest this h2']

/-- The scan of the whole format string, started with enough fuel. -/
def fmtNoArgs (l : List Char) : List Char :=
  fmtNoArgsFuel l.length l

/-- Models `fmt.Sprintf(txt)` with an empty variadic argument list, as
invoked by `Text(txt)` when no formatting arguments are given. -/
def sprintfNoArgs (s : String) : String :=
  ⟨fmtNoArgs s.data⟩

/-- Models `Text(txt)` called with no variadic arguments:
`text(fmt.Sprintf(txt))` — the printf interpolation runs unconditionally at
construction time, even with zero arguments. -/
def Text (txt : String) : Elem :=
  .text (sprintfNoArgs txt)

/-- Models `Div(body...)`. -/
def Div (body : List Elem) : Option Elem := Make "div" body

/-- Models `MapIdx(values, iter)`.  A Go slice is `Option (List T)` so that
the nil slice (`none`) is distinguished from a non-nil empty slice
(`some []`): `values == nil` yields `Empty()`, otherwise the transformed
elements are wrapped in a `Fragment`. -/
def MapIdx {T : Type} (values : Option (List T)) (iter : T → Nat → Elem) :
    Option Elem :=
  match values with
  | none => some Empty
  | some vs => Fragment ((vs.enum).map (fun p => iter p.2 p.1))

/-- Models `Map(values, iter)`: `MapIdx` with the index ignored. -/
def Map {T : Type} (values : Option (List T)) (iter : T → Elem) :
    Option Elem :=
  MapIdx values (fun v _ => iter v)

theorem withBody_append (xs ys : List Elem) (b : Elem) :
    withBody b (xs ++ ys) = (withBody b xs).bind (fun b2 => withBody b2 ys) := by
  induction xs generalizing b with
  | nil => rfl
  | cons x rest ih =>
    simp only [List.cons_append, withBody]
    cases withBodyStep b x with
    | none => rfl
    | some b2 => exact ih b2

theorem withBodyStep_shape {t : String} {s f : Bool} {a bo : List Elem}
    {el e : Elem} (h : withBodyStep (.builder t s f a bo) el = some e) :
    ∃ a2 bo2, e = Elem.builder t s f a2 bo2 := by
  cases el
  case builder t2 s2 f2 ta tb =>
    simp only [withBodyStep] at h
    by_cases ht : t2 = "__attr"
    · rw [if_pos ht] at h
      cases ta with
      | nil => exact absurd h (by simp)
      | cons a0 arest =>
        simp only [Option.some.injEq] at h
        exact ⟨_, _, h.symm⟩
    · rw [if_neg ht] at h
      simp only [Option.some.injEq] at h
      exact ⟨_, _, h.symm⟩
  all_goals
    (simp only [withBodyStep, Option.some.injEq] at h
     exact ⟨_, _, h.symm⟩)

theorem withBody_shape {t : String} {s f : Bool} {a bo : List Elem}
    {l : List Elem} {e : Elem}
    (h : withBody (.builder t s f a bo) l = some e) :
    ∃ a2 bo2, e = Elem.builder t s f a2 bo2 := by
  induction l generalizing a bo with
  | nil =>
    simp only [withBody, Option.some.injEq] at h
    exact ⟨a, bo, h.symm⟩
  | cons x rest ih =>
    simp only [withBody] at h
    cases hs : withBodyStep (.builder t s f a bo) x with
    | none => rw [hs] at h; exact absurd h (by simp)
    | some b2 =>
      rw [hs] at h
      obtain ⟨a2, bo2, rfl⟩ := withBodyStep_shape hs
      exact ih h

/-- Follows the spec's words for the fragment case of `Render` — "FragmentNode
→ concatenation of `Render(child)` for each child in order, no wrapping" —
as a left-to-right fold that appends each child's render to the output
accumulated so far, starting from the empty string.  It is compared with
the renderer translated from the source in `Htm.C6_fragment_concat`. -/
def specFragmentOutput (children : List Elem) : Option String :=
  children.foldlM (fun acc c => (render c).map (fun s => acc ++ s)) ""

theorem renderFrag_foldlM (body : List Elem) :
    ∀ acc : String,
      body.foldlM (fun a c => (render c).map (fun s => a ++ s)) acc
        = (renderFrag body).map (fun s => acc ++ s) := by
  induction body with
  | nil =>
    intro acc
    simp [renderFrag, String.append_empty]
  | cons e rest ih =>
    intro acc
    simp only [List.foldlM_cons, renderFrag, ih]
    cases render e with
    | none => rfl
    | some s =>
      cases renderFrag rest with
      | none => rfl
      | some t => simp [String.append_assoc]

theorem fmtNoArgsFuel_no_percent :
    ∀ (fuel : Nat) (l : List Char), l.length ≤ fuel →
      (∀ c ∈ l, c ≠ '%') → fmtNoArgsFuel fuel l = l := by
  intro fuel
  induction fuel with
  | zero =>
    intro l h1 _
    have hl : l = [] := List.eq_nil_of_length_eq_zero (Nat.le_zero.mp h1)
    subst hl
    rfl
  | succ g ih =>
    intro l h1 h2
    cases l with
    | nil => rfl
    | cons c rest =>
      have hc : ¬ c = '%' := h2 c (by simp)
      simp only [fmtNoArgsFuel, if_neg hc]
      rw [ih rest (by simp only [List.length_cons] at h1; omega)
        (fun d hd => h2 d (by simp [hd]))]

/-- C1: evaluation of `Render` at the repository's own test case
`Div(Id("id"), Class("class"), Text("fourth"))`.  The attributes are
emitted in argument order, space-separated, with one leading and no
trailing space, but each is formatted `key='value'` with single quotes,
while the claim (and the repository's test) expects `key="value"` with
double quotes. -/
theorem C1_attr_quote_divergence :
    (Div [Id "id", Class "class", Text "fourth"]).bind render
        = some "<div id=\x27id\x27 class=\x27class\x27>fourth</div>" ∧
    (Div [Id "id", Class "class", Text "fourth"]).bind render
        ≠ some "<div id=\"id\" class=\"class\">fourth</div>" :=
  ⟨rfl, by decide⟩

/-- C2 counterexample: `Text` interpolates with `fmt.Sprintf` even with no
arguments, so `Render(Text("%"))` is `"%!(NOVERB)"`, not `"%"`. -/
theorem C2_counterexample :
    render (Text "%") = some "%!(NOVERB)" ∧ render (Text "%") ≠ some "%" :=
  ⟨rfl, by decide⟩

/-- C2 (amended): for every string without a `%` character the printf
interpolation performed at construction time is the identity, so
`Render(Text(s))` equals `s` verbatim, with no escaping and no other
transformation. -/
theorem C2_text_literal_verbatim (s : String) (h : ∀ c ∈ s.data, c ≠ '%') :
    render (Text s) = some s := by
  show some (textRender (sprintfNoArgs s)) = some s
  have hs : sprintfNoArgs s = s := by
    show String.mk (fmtNoArgsFuel s.data.length s.data) = s
    rw [fmtNoArgsFuel_no_percent s.data.length s.data (Nat.le_refl _) h]
  rw [hs]
  rfl

/-- C2 witness: instantiation at the string `"hello"`. -/
theorem C2_text_literal_verbatim_witness :
    (∀ c ∈ ("hello" : String).data, c ≠ '%') ∧
    render (Text "hello") = some "hello" :=
  ⟨by decide, C2_text_literal_verbatim "hello" (by decide)⟩

/-- C3: a fragment whose body contains a nil child panics during `Render`
(modelled as `none`) because the fragment loop has no nil check, while a
normal element's body loop does skip nil children; this contradicts the
claim that nil entries are always skipped without output or failure. -/
theorem C3_fragment_nil_child_panics :
    (Fragment [Elem.nilElem]).bind render = none ∧
    (Make "div" [Elem.nilElem]).bind render = some "<div></div>" :=
  ⟨rfl, rfl⟩

/-- C4 counterexample: rendering `Attr("id","x")` standalone yields
`<__attr id='x'></__attr>`, not `id="x"`: `Attr` returns a `builder` with
tag `__attr`, which renders as a normal element. -/
theorem C4_counterexample :
    render (Attr "id" "x") = some "<__attr id=\x27x\x27></__attr>" ∧
    render (Attr "id" "x") ≠ some "id=\"x\"" :=
  ⟨rfl, by decide⟩

/-- C4 (amended): for every key and value, rendering `Attr(k, v)` standalone
yields `<__attr k='v'></__attr>` — the single attribute formatted with
single quotes, wrapped in an element with tag `__attr`. -/
theorem C4_attr_standalone (k v : String) :
    render (Attr k v)
      = some ("<__attr " ++ k ++ "=\x27" ++ v ++ "\x27></__attr>") := by
  show some ("<" ++ "__attr" ++ (" " ++ attrPair k v) ++ ">" ++ "" ++ "</"
      ++ "__attr" ++ ">") = _
  congr 1
  apply String.ext
  simp only [attrPair, String.data_append, List.append_assoc]
  rfl

/-- C4 witness: instantiation at a concrete key and value. -/
theorem C4_attr_standalone_witness :
    render (Attr "a" "b")
      = some ("<__attr " ++ "a" ++ "=\x27" ++ "b" ++ "\x27></__attr>") :=
  C4_attr_standalone "a" "b"

/-- C5: joining children onto a constructed extensible node renders the
same as constructing the node afresh with the original constructor
arguments followed by the new children; attribute-typed arguments are
partitioned into the attribute list identically in both cases. -/
theorem C5_join_eq_fresh (tag : String) (sc fr : Bool)
    (args cs : List Elem) (p : Elem)
    (h : withBody (build tag sc fr) args = some p) :
    (Join p cs).bind render
      = (withBody (build tag sc fr) (args ++ cs)).bind render := by
  obtain ⟨a2, bo2, rfl⟩ := withBody_shape h
  rw [withBody_append, h]
  rfl

/-- C5 witness: a `div` with one id attribute, joined with one text child. -/
theorem C5_join_eq_fresh_witness :
    withBody (build "div" false false) [Id "id"]
        = some (Elem.builder "div" false false [Elem.attribute "id" "id"] []) ∧
    (Join (Elem.builder "div" false false [Elem.attribute "id" "id"] [])
        [Text "t"]).bind render
      = (withBody (build "div" false false) ([Id "id"] ++ [Text "t"])).bind render :=
  ⟨rfl, C5_join_eq_fresh "div" false false [Id "id"] [Text "t"] _ rfl⟩

/-- C6: a fragment node with a non-empty tag renders to exactly the
concatenation of the renders of its body children in order — the spec-side
definition `specFragmentOutput` — with no wrapping tag, and its attribute
list never appears in the output. -/
theorem C6_fragment_concat (tag : String) (h : tag.length ≠ 0) (sc : Bool)
    (attrs body : List Elem) :
    render (.builder tag sc true attrs body) = specFragmentOutput body := by
  have h1 : render (.builder tag sc true attrs body) = renderFrag body := by
    simp [render, h]
  rw [h1, specFragmentOutput, renderFrag_foldlM body ""]
  cases renderFrag body with
  | none => rfl
  | some t => simp [String.empty_append]

/-- C6 witness: a fragment carrying a (discarded) attribute and two text
children. -/
theorem C6_fragment_concat_witness :
    ("__fragment" : String).length ≠ 0 ∧
    render (Elem.builder "__fragment" false true [Elem.attribute "k" "v"]
        [Elem.text "a", Elem.text "b"])
      = specFragmentOutput [Elem.text "a", Elem.text "b"] :=
  ⟨by decide, C6_fragment_concat "__fragment" (by decide) false _ _⟩

/-- C7: a self-closing element with a non-empty tag renders as `<`, the
tag, the attribute segment, then `/>`; its body is never rendered, even
when non-attribute children were supplied to the constructor. -/
theorem C7_selfclosing (tag : String) (h : tag.length ≠ 0)
    (attrs body : List Elem) (astr : String)
    (ha : renderAttrs attrs = some astr) :
    render (.builder tag true false attrs body)
      = some ("<" ++ tag ++ astr ++ "/>") := by
  simp [render, h, ha]

/-- C7 witness: the repository's `link` element with two attributes and a
text child that is not rendered. -/
theorem C7_selfclosing_witness :
    ("link" : String).length ≠ 0 ∧
    renderAttrs [Elem.attribute "rel" ".", Elem.attribute "href" "."]
        = some " rel=\x27.\x27 href=\x27.\x27" ∧
    render (Elem.builder "link" true false
        [Elem.attribute "rel" ".", Elem.attribute "href" "."] [Elem.text "child"])
      = some ("<" ++ "link" ++ " rel=\x27.\x27 href=\x27.\x27" ++ "/>") :=
  ⟨by decide, rfl, C7_selfclosing "link" (by decide) _ _ _ rfl⟩

/-- C8: `Join` on a parent that is not a `builder` (a text node, an
attribute value, or the nil interface) cannot fail, performs no mutation
and returns the parent itself unchanged. -/
theorem C8_join_non_extensible (p : Elem) (cs : List Elem)
    (h : isBuilderElem p = false) : Join p cs = some p := by
  cases p
  case builder t s f a b => exact absurd h (by simp [isBuilderElem])
  all_goals rfl

/-- C8 witness: joining children onto a text node returns it unchanged. -/
theorem C8_join_non_extensible_witness :
    isBuilderElem (Elem.text "hi") = false ∧
    Join (Elem.text "hi") [Attr "a" "b"] = some (Elem.text "hi") :=
  ⟨rfl, C8_join_non_extensible _ _ rfl⟩

/-- C9: `Map` and `MapIdx` on a nil slice or on an empty slice return a
node that renders to the empty string, for every transform function. -/
theorem C9_map_empty {T : Type} (f : T → Elem) (g : T → Nat → Elem) :
    (Map none f).bind render = some "" ∧
    (Map (some []) f).bind render = some "" ∧
    (MapIdx none g).bind render = some "" ∧
    (MapIdx (some []) g).bind render = some "" :=
  ⟨rfl, rfl, rfl, rfl⟩

/-- C9 witness: instantiation at a concrete transform function. -/
theorem C9_map_empty_witness :
    (Map none (fun n : Nat => Text (toString n))).bind render = some "" ∧
    (Map (some []) (fun n : Nat => Text (toString n))).bind render = some "" ∧
    (MapIdx none (fun (n : Nat) (_ : Nat) => Text (toString n))).bind render
        = some "" ∧
    (MapIdx (some []) (fun (n : Nat) (_ : Nat) => Text (toString n))).bind render
        = some "" :=
  C9_map_empty _ _

/-- C10: joining any children onto `Empty()` succeeds silently (the empty
node is a `builder`, so `Join` absorbs them), and the joined node still
renders to the empty string because its tag is empty. -/
theorem C10_join_empty (cs : List Elem) (e : Elem)
    (h : Join Empty cs = some e) : render e = some "" := by
  have h2 : withBody (.builder "" false false [] []) cs = some e := h
  obtain ⟨a2, bo2, rfl⟩ := withBody_shape h2
  rfl

/-- C10 witness: `Join(Empty(), Text("x"), Attr("k","v"))` renders to `""`. -/
theorem C10_join_empty_witness :
    Join Empty [Text "x", Attr "k" "v"]
        = some (Elem.builder "" false false [Elem.attribute "k" "v"] [Elem.text "x"]) ∧
    render (Elem.builder "" false false [Elem.attribute "k" "v"] [Elem.text "x"])
        = some "" :=
  ⟨rfl, C10_join_empty [Text "x", Attr "k" "v"] _ rfl⟩

end Htm
